import Mathlib

/-!
# Credential manager (`auth.go`): a shallow embedding

The Go package `auth` offers `Register`, `Authenticate`, `ForceChangePassword`,
`ChangePassword`, `ForceChangeEmail` and `ChangeEmail` on top of three collaborators:

* the tag-driven struct validator (`validator.Validate.Struct`), embedded here as an
  interpreter of the tags that occur in the source, with the `email` syntax check left
  as a parameter;
* `bcrypt` (`GenerateFromPassword`, `CompareHashAndPassword`), a parameter; the random
  salt that `GenerateFromPassword` draws is an explicit argument;
* the `auth_users` table behind the query builder, a list of rows threaded through
  every operation.

A Go result `(int, error)` is the pair `Int × Option Error`, with `none` for `nil`.
Go strings are Lean strings; `min=`/`max=` count runes, as `String.length` does.
-/

namespace Auth

/-! ## Errors -/

/-- One entry of `validator.ValidationErrors`: the struct field and the tag that failed. -/
structure FieldError where
  field : String
  tag : String
deriving DecidableEq, Repr

/-- Errors of the `bcrypt` package. -/
inductive BcryptError where
  | ErrMismatchedHashAndPassword
  | ErrHashTooShort
  | ErrPasswordTooLong
  | ReadRandom
deriving DecidableEq, Repr

/-- Every error value an operation of the package can return. -/
inductive Error where
  | ValidationErrors (errs : List FieldError)
  | ErrNoRows
  | UniqueConstraint
  | RunnerNotSet
  | Bcrypt (e : BcryptError)
deriving DecidableEq, Repr

/-! ## The struct validator -/

/-- The validation tags used by the structs of `auth.go`. -/
inductive Tag where
  | required
  | email
  | min (n : Nat)
  | max (n : Nat)
  | eqfield (other : String)
  | nefield (other : String)
deriving DecidableEq, Repr

/-- The tag as it is spelled in the source and reported in a field error. -/
def Tag.name : Tag → String
  | .required => "required"
  | .email => "email"
  | .min _ => "min"
  | .max _ => "max"
  | .eqfield _ => "eqfield"
  | .nefield _ => "nefield"

/-- A reflected field value: the structs only have `string` and `int` fields. -/
inductive Value where
  | str (s : String)
  | int (i : Int)
deriving DecidableEq, Repr

/-- A struct field as the validator sees it: name, value and its `validate:"..."` tags. -/
structure Field where
  name : String
  value : Value
  tags : List Tag
deriving Repr

/-- The `*validator.Validate` handle; its `email` check is a regular expression of the
library and stays abstract. -/
structure Validate where
  isEmail : String → Bool

/-- Looks a sibling field up by name (`GetStructFieldOK`). -/
def lookupField (fields : List Field) (name : String) : Option Value :=
  (fields.find? (fun f => f.name == name)).map (fun f => f.value)

/-- Whether one tag accepts a value. `eqfield` fails and `nefield` passes when the named
sibling is missing or of another kind, as in the library. -/
def Validate.holds (v : Validate) (fields : List Field) (x : Value) : Tag → Bool
  | .required =>
    match x with
    | .str s => s.length != 0
    | .int i => i != 0
  | .email =>
    match x with
    | .str s => v.isEmail s
    | .int _ => false
  | .min n =>
    match x with
    | .str s => decide (n ≤ s.length)
    | .int i => decide ((n : Int) ≤ i)
  | .max n =>
    match x with
    | .str s => decide (s.length ≤ n)
    | .int i => decide (i ≤ (n : Int))
  | .eqfield other =>
    match x, lookupField fields other with
    | .str s, some (.str t) => s == t
    | .int i, some (.int j) => i == j
    | _, _ => false
  | .nefield other =>
    match x, lookupField fields other with
    | .str s, some (.str t) => s != t
    | .int i, some (.int j) => i != j
    | _, _ => true

/-- The first tag of a field that rejects its value, if any: the validator stops at the
first failing tag of each field. -/
def Validate.fieldError (v : Validate) (fields : List Field) (f : Field) : Option FieldError :=
  (f.tags.find? (fun t => !(v.holds fields f.value t))).map (fun t => ⟨f.name, t.name⟩)

/-- Embeds `validator.Validate.Struct`: `nil` when every field passes, otherwise the
collected field errors. -/
def Validate.Struct (v : Validate) (fields : List Field) : Option Error :=
  match fields.filterMap (v.fieldError fields) with
  | [] => none
  | e :: es => some (.ValidationErrors (e :: es))

/-! ## bcrypt -/

/-- The two `bcrypt` functions the package calls. `GenerateFromPassword` receives the
password and the salt it would read from the random source (the cost is the constant
`bcrypt.DefaultCost`); `CompareHashAndPassword` returns `none` when the hash verifies. -/
structure Bcrypt where
  GenerateFromPassword : String → Nat → Except BcryptError String
  CompareHashAndPassword : String → String → Option BcryptError

/-! ## The credential store -/

/-- A row of `auth_users`. -/
structure UserRecord where
  id : Int
  email : String
  password : String
deriving DecidableEq, Repr

/-- The table `auth_users`. -/
abbrev Store := List UserRecord

/-- Modelled from the spec: the id the store assigns to a new row (the migration that
creates `auth_users` is not among the sources; ids are store-assigned and unique, here one
more than the largest id in use, starting at 1). -/
def nextId (db : Store) : Int :=
  db.foldl (fun m r => max m r.id) 0 + 1

/-- Modelled from the spec: `InsertUser(email, password_hash) -> id | DuplicateEmail`,
the statement `insert into auth_users (email, password) values (?, ?) returning id`
under the uniqueness constraint on `email`. -/
def InsertUser (db : Store) (email hash : String) : (Int × Option Error) × Store :=
  if db.any (fun r => r.email == email) then ((0, some .UniqueConstraint), db)
  else ((nextId db, none), db ++ [⟨nextId db, email, hash⟩])

/-- Modelled from the spec: `SelectUserByEmail(email) -> (id, password_hash) | NotFound`,
the statement `select password, id from auth_users where email = ?` scanned as one row. -/
def SelectUserByEmail (db : Store) (email : String) : Option UserRecord :=
  db.find? (fun r => r.email == email)

/-- Modelled from the spec: `UpdatePasswordById(id, password_hash) -> affected_count`. -/
def UpdatePasswordById (db : Store) (id : Int) (hash : String) : (Nat × Option Error) × Store :=
  (((db.filter (fun r => r.id == id)).length, none),
    db.map (fun r => if r.id == id then { r with password := hash } else r))

/-- Modelled from the spec: `UpdateEmailById(id, email) -> affected_count | DuplicateEmail`.
The statement fails, changing nothing, when a row it rewrites would share its email with
another row: two rows are rewritten, or a row that is not rewritten already holds it. -/
def UpdateEmailById (db : Store) (id : Int) (email : String) : (Nat × Option Error) × Store :=
  let hit := (db.filter (fun r => r.id == id)).length
  if hit = 0 then ((0, none), db)
  else if 2 ≤ hit ∨ db.any (fun r => r.id != id && r.email == email) then
    ((0, some .UniqueConstraint), db)
  else ((hit, none), db.map (fun r => if r.id == id then { r with email := email } else r))

/-- The column an update statement sets. -/
inductive Column where
  | email
  | password
deriving DecidableEq, Repr

/-- An update statement under construction: `sq.Update("auth_users").Set(column, value)
.Where(sq.Eq{"id": id})`, and whether `RunWith` gave it a runner. -/
structure UpdateBuilder where
  column : Column
  value : String
  whereId : Int
  hasRunner : Bool
deriving Repr

/-- The builder after `Update(...).Set(column, value).Where(sq.Eq{"id": id})`: no runner. -/
def Update (column : Column) (value : String) (id : Int) : UpdateBuilder :=
  ⟨column, value, id, false⟩

/-- Embeds `RunWith(a.Db)`. -/
def UpdateBuilder.RunWith (b : UpdateBuilder) : UpdateBuilder :=
  { b with hasRunner := true }

/-- Embeds `UpdateBuilder.Exec`: without a runner the statement is not sent and the
builder's `RunnerNotSet` error is returned. -/
def UpdateBuilder.Exec (b : UpdateBuilder) (db : Store) : (Nat × Option Error) × Store :=
  if b.hasRunner then
    match b.column with
    | .email => UpdateEmailById db b.whereId b.value
    | .password => UpdatePasswordById db b.whereId b.value
  else ((0, some .RunnerNotSet), db)

/-! ## The argument structs and their tags -/

/-- Embeds `RegisterArgs`. -/
structure RegisterArgs where
  Email : String
  PasswordPlain : String
  PasswordConfirm : String
deriving Repr

/-- The fields of `RegisterArgs` with their `validate` tags. -/
def RegisterArgs.fields (a : RegisterArgs) : List Field :=
  [ ⟨"Email", .str a.Email, [.required, .email]⟩,
    ⟨"PasswordPlain", .str a.PasswordPlain, [.required, .min 8, .max 30]⟩,
    ⟨"PasswordConfirm", .str a.PasswordConfirm,
      [.required, .min 8, .max 30, .eqfield "PasswordPlain"]⟩ ]

/-- Embeds `AuthenticateArgs`. -/
structure AuthenticateArgs where
  Email : String
  PasswordPlain : String
deriving Repr

/-- The fields of `AuthenticateArgs` with their `validate` tags. -/
def AuthenticateArgs.fields (a : AuthenticateArgs) : List Field :=
  [ ⟨"Email", .str a.Email, [.required, .email]⟩,
    ⟨"PasswordPlain", .str a.PasswordPlain, [.required, .min 8, .max 30]⟩ ]

/-- Embeds `ForceChangePasswordArgs`. -/
structure ForceChangePasswordArgs where
  Id : Int
  NewPasswordPlain : String
deriving Repr

/-- The fields of `ForceChangePasswordArgs` with their `validate` tags; the struct has no
field `PasswordPlain` for its `nefield` tag to find. -/
def ForceChangePasswordArgs.fields (a : ForceChangePasswordArgs) : List Field :=
  [ ⟨"Id", .int a.Id, [.required]⟩,
    ⟨"NewPasswordPlain", .str a.NewPasswordPlain,
      [.required, .min 8, .max 30, .nefield "PasswordPlain"]⟩ ]

/-- Embeds `ChangePasswordArgs`. -/
structure ChangePasswordArgs where
  Email : String
  PasswordPlain : String
  NewPasswordPlain : String
  NewPasswordConfirm : String
deriving Repr

/-- The fields of `ChangePasswordArgs` with their `validate` tags. -/
def ChangePasswordArgs.fields (a : ChangePasswordArgs) : List Field :=
  [ ⟨"Email", .str a.Email, [.required, .email]⟩,
    ⟨"PasswordPlain", .str a.PasswordPlain, [.required, .min 8, .max 30]⟩,
    ⟨"NewPasswordPlain", .str a.NewPasswordPlain,
      [.required, .min 8, .max 30, .nefield "PasswordPlain"]⟩,
    ⟨"NewPasswordConfirm", .str a.NewPasswordConfirm,
      [.required, .min 8, .max 30, .nefield "PasswordPlain"]⟩ ]

/-- Embeds `ChangeEmailAdminArgs`. -/
structure ChangeEmailAdminArgs where
  Id : Int
  NewEmail : String
  EmailConfirm : String
deriving Repr

/-- The fields of `ChangeEmailAdminArgs` with their `validate` tags; the struct has no
field `Email` for its `nefield` tags to find. -/
def ChangeEmailAdminArgs.fields (a : ChangeEmailAdminArgs) : List Field :=
  [ ⟨"Id", .int a.Id, [.required]⟩,
    ⟨"NewEmail", .str a.NewEmail, [.required, .email, .nefield "Email"]⟩,
    ⟨"EmailConfirm", .str a.EmailConfirm, [.required, .email, .nefield "Email"]⟩ ]

/-- Embeds `ChangeEmailArgs`. -/
structure ChangeEmailArgs where
  Email : String
  PasswordPlain : String
  NewEmail : String
  EmailConfirm : String
deriving Repr

/-- The fields of `ChangeEmailArgs` with their `validate` tags. -/
def ChangeEmailArgs.fields (a : ChangeEmailArgs) : List Field :=
  [ ⟨"Email", .str a.Email, [.required, .email]⟩,
    ⟨"PasswordPlain", .str a.PasswordPlain, [.required, .min 8, .max 30]⟩,
    ⟨"NewEmail", .str a.NewEmail, [.required, .email, .nefield "Email"]⟩,
    ⟨"EmailConfirm", .str a.EmailConfirm, [.required, .email, .nefield "Email"]⟩ ]

/-! ## The operations of `AuthSqlite` -/

/-- Embeds `AuthSqlite.Register`: validate, hash, insert, return the new id. -/
def Register (B : Bcrypt) (V : Validate) (db : Store) (salt : Nat) (args : RegisterArgs) :
    (Int × Option Error) × Store :=
  match V.Struct args.fields with
  | some err => ((0, some err), db)
  | none =>
    match B.GenerateFromPassword args.PasswordPlain salt with
    | .error e => ((0, some (.Bcrypt e)), db)
    | .ok hashedPassword =>
      match InsertUser db args.Email hashedPassword with
      | ((_, some err), db1) => ((0, some err), db1)
      | ((id, none), db1) => ((id, none), db1)

/-- Embeds `AuthSqlite.Authenticate`: validate, select the row by email, compare the
stored hash with the password. It only reads the store. -/
def Authenticate (B : Bcrypt) (V : Validate) (db : Store) (args : AuthenticateArgs) :
    Int × Option Error :=
  match V.Struct args.fields with
  | some err => (0, some err)
  | none =>
    match SelectUserByEmail db args.Email with
    | none => (0, some .ErrNoRows)
    | some row =>
      match B.CompareHashAndPassword row.password args.PasswordPlain with
      | some e => (0, some (.Bcrypt e))
      | none => (row.id, none)

/-- Embeds `AuthSqlite.ForceChangePassword`: validate, hash, build the update of the
`password` column and `Exec` it. The source builds the statement without `RunWith`. -/
def ForceChangePassword (B : Bcrypt) (V : Validate) (db : Store) (salt : Nat)
    (args : ForceChangePasswordArgs) : Option Error × Store :=
  match V.Struct args.fields with
  | some err => (some err, db)
  | none =>
    match B.GenerateFromPassword args.NewPasswordPlain salt with
    | .error e => (some (.Bcrypt e), db)
    | .ok hashedPassword =>
      let stmt := Update .password hashedPassword args.Id
      match stmt.Exec db with
      | ((_, some err), db1) => (some err, db1)
      | ((_, none), db1) => (none, db1)

/-- Embeds `AuthSqlite.ChangePassword`: validate, authenticate with the current password,
call `ForceChangePassword` with `NewPasswordPlain: args.PasswordPlain`, drop the error it
returns and return `nil`. -/
def ChangePassword (B : Bcrypt) (V : Validate) (db : Store) (salt : Nat)
    (args : ChangePasswordArgs) : Option Error × Store :=
  match V.Struct args.fields with
  | some err => (some err, db)
  | none =>
    match Authenticate B V db ⟨args.Email, args.PasswordPlain⟩ with
    | (_, some err) => (some err, db)
    | (id, none) =>
      let r := ForceChangePassword B V db salt ⟨id, args.PasswordPlain⟩
      (none, r.2)

/-- Embeds `AuthSqlite.ForceChangeEmail`: no validation; the update of the `email` column
is built with `RunWith(a.Db)` and executed. -/
def ForceChangeEmail (db : Store) (args : ChangeEmailAdminArgs) : Option Error × Store :=
  let stmt := (Update .email args.NewEmail args.Id).RunWith
  match stmt.Exec db with
  | ((_, some err), db1) => (some err, db1)
  | ((_, none), db1) => (none, db1)

/-- Embeds `AuthSqlite.ChangeEmail`: validate, authenticate, then `ForceChangeEmail` for
the authenticated id. -/
def ChangeEmail (B : Bcrypt) (V : Validate) (db : Store) (args : ChangeEmailArgs) :
    Option Error × Store :=
  match V.Struct args.fields with
  | some err => (some err, db)
  | none =>
    match Authenticate B V db ⟨args.Email, args.PasswordPlain⟩ with
    | (_, some err) => (some err, db)
    | (id, none) =>
      match ForceChangeEmail db ⟨id, args.NewEmail, args.EmailConfirm⟩ with
      | (some err, db1) => (some err, db1)
      | (none, db1) => (none, db1)

/-! ## The rules the tags express -/

/-- What `required,email` asks of a string: non-empty and accepted by the email check. -/
def validEmail (V : Validate) (s : String) : Prop :=
  s.length ≠ 0 ∧ V.isEmail s = true

/-- What `required,min=8,max=30` asks of a string: between 8 and 30 characters. -/
def validPassword (s : String) : Prop :=
  8 ≤ s.length ∧ s.length ≤ 30

/-- A stored hash verifies against a plaintext when `CompareHashAndPassword` returns `nil`. -/
def verifies (B : Bcrypt) (hash plain : String) : Prop :=
  B.CompareHashAndPassword hash plain = none

instance (V : Validate) (s : String) : Decidable (validEmail V s) := by
  unfold validEmail; infer_instance

instance (s : String) : Decidable (validPassword s) := by
  unfold validPassword; infer_instance

instance (B : Bcrypt) (h p : String) : Decidable (verifies B h p) := by
  unfold verifies; infer_instance

/-- The emails of the table are pairwise different. -/
def UniqueEmails (db : Store) : Prop :=
  (db.map (fun r => r.email)).Nodup

instance (db : Store) : Decidable (UniqueEmails db) := by
  unfold UniqueEmails; infer_instance

/-! ## A small concrete instance, for evaluating the operations -/

/-- A stand-in for the `email` check: a non-empty local part, one `@`, and a dot in the
domain. -/
def sampleIsEmail (s : String) : Bool :=
  let l := s.toList
  let dom := (l.dropWhile (fun c => c != '@')).drop 1
  !(l.takeWhile (fun c => c != '@')).isEmpty && dom.contains '.' && !dom.contains '@'

/-- The validator used in the concrete evaluations. -/
def sampleValidate : Validate := ⟨sampleIsEmail⟩

/-- A stand-in hash of 60 characters: a version prefix, the password, and padding. It is
not one-way; it only has the shape the operations rely on. -/
def sampleHash (p : String) : String :=
  String.mk ("$2a$10$".toList ++ p.toList ++ List.replicate (53 - p.length) '.')

/-- A stand-in for `bcrypt`: passwords over 53 characters are refused, a hash verifies
exactly against the hash of the password. -/
def sampleBcrypt : Bcrypt where
  GenerateFromPassword := fun p _ =>
    if p.length ≤ 53 then .ok (sampleHash p) else .error .ErrPasswordTooLong
  CompareHashAndPassword := fun h p =>
    if h.length < 60 then some .ErrHashTooShort
    else if h == sampleHash p then none else some .ErrMismatchedHashAndPassword

/-- A table with one account, `a@x.com` with password `password1`. -/
def sampleStore : Store :=
  [⟨1, "a@x.com", sampleHash "password1"⟩]

/-- A table with two accounts. -/
def sampleStore2 : Store :=
  [⟨1, "a@x.com", sampleHash "password1"⟩, ⟨2, "b@x.com", sampleHash "password2"⟩]

/-- The account of the password-change test: `changePass@email.com` with `password`. -/
def sampleStore3 : Store :=
  [⟨1, "changePass@email.com", sampleHash "password"⟩]

/-! ## What the validator accepts -/

theorem Struct_eq_none_iff (V : Validate) (fields : List Field) :
    V.Struct fields = none ↔ ∀ f ∈ fields, V.fieldError fields f = none := by
  unfold Validate.Struct
  constructor
  · intro h
    split at h
    · rename_i hnil
      exact List.filterMap_eq_nil_iff.mp hnil
    · exact absurd h (by simp)
  · intro h
    rw [List.filterMap_eq_nil_iff.mpr h]

theorem Struct_eq_some (V : Validate) (fields : List Field) (e : Error)
    (h : V.Struct fields = some e) : ∃ errs, e = .ValidationErrors errs := by
  unfold Validate.Struct at h
  split at h
  · exact absurd h (by simp)
  · rename_i e1 es _
    exact ⟨e1 :: es, by simpa using h.symm⟩

theorem RegisterArgs_Struct_none_iff (V : Validate) (a : RegisterArgs) :
    V.Struct a.fields = none ↔
      validEmail V a.Email ∧ validPassword a.PasswordPlain ∧
      a.PasswordConfirm = a.PasswordPlain := by
  have e1 : 8 ≤ a.PasswordPlain.length → ¬ a.PasswordPlain.length = 0 := by omega
  rw [Struct_eq_none_iff]
  by_cases hc : a.PasswordConfirm = a.PasswordPlain
  · simp [RegisterArgs.fields, Validate.fieldError, Validate.holds, lookupField, validEmail,
      validPassword, hc]
    tauto
  · simp [RegisterArgs.fields, Validate.fieldError, Validate.holds, lookupField, validEmail,
      validPassword, hc]

theorem AuthenticateArgs_Struct_none_iff (V : Validate) (a : AuthenticateArgs) :
    V.Struct a.fields = none ↔ validEmail V a.Email ∧ validPassword a.PasswordPlain := by
  have e1 : 8 ≤ a.PasswordPlain.length → ¬ a.PasswordPlain.length = 0 := by omega
  rw [Struct_eq_none_iff]
  simp [AuthenticateArgs.fields, Validate.fieldError, Validate.holds, validEmail,
    validPassword]
  tauto

theorem ForceChangePasswordArgs_Struct_none_iff (V : Validate) (a : ForceChangePasswordArgs) :
    V.Struct a.fields = none ↔ a.Id ≠ 0 ∧ validPassword a.NewPasswordPlain := by
  have e1 : 8 ≤ a.NewPasswordPlain.length → ¬ a.NewPasswordPlain.length = 0 := by omega
  rw [Struct_eq_none_iff]
  simp [ForceChangePasswordArgs.fields, Validate.fieldError, Validate.holds, lookupField,
    validPassword]
  tauto

theorem ChangePasswordArgs_Struct_none_iff (V : Validate) (a : ChangePasswordArgs) :
    V.Struct a.fields = none ↔
      validEmail V a.Email ∧ validPassword a.PasswordPlain ∧
      (validPassword a.NewPasswordPlain ∧ a.NewPasswordPlain ≠ a.PasswordPlain) ∧
      (validPassword a.NewPasswordConfirm ∧ a.NewPasswordConfirm ≠ a.PasswordPlain) := by
  have e1 : 8 ≤ a.PasswordPlain.length → ¬ a.PasswordPlain.length = 0 := by omega
  have e2 : 8 ≤ a.NewPasswordPlain.length → ¬ a.NewPasswordPlain.length = 0 := by omega
  have e3 : 8 ≤ a.NewPasswordConfirm.length → ¬ a.NewPasswordConfirm.length = 0 := by omega
  rw [Struct_eq_none_iff]
  simp [ChangePasswordArgs.fields, Validate.fieldError, Validate.holds, lookupField,
    validEmail, validPassword]
  tauto

theorem ChangeEmailArgs_Struct_none_iff (V : Validate) (a : ChangeEmailArgs) :
    V.Struct a.fields = none ↔
      validEmail V a.Email ∧ validPassword a.PasswordPlain ∧
      (validEmail V a.NewEmail ∧ a.NewEmail ≠ a.Email) ∧
      (validEmail V a.EmailConfirm ∧ a.EmailConfirm ≠ a.Email) := by
  have e1 : 8 ≤ a.PasswordPlain.length → ¬ a.PasswordPlain.length = 0 := by omega
  rw [Struct_eq_none_iff]
  simp [ChangeEmailArgs.fields, Validate.fieldError, Validate.holds, lookupField,
    validEmail, validPassword]
  tauto

/-! ## Selecting by email -/

theorem SelectUserByEmail_none_iff (db : Store) (email : String) :
    SelectUserByEmail db email = none ↔ ∀ r ∈ db, r.email ≠ email := by
  simp [SelectUserByEmail]

theorem SelectUserByEmail_some_mem (db : Store) (email : String) (row : UserRecord)
    (h : SelectUserByEmail db email = some row) : row ∈ db ∧ row.email = email := by
  unfold SelectUserByEmail at h
  exact ⟨List.mem_of_find?_eq_some h, by simpa using List.find?_some h⟩

theorem eq_of_email_eq (db : Store) (hU : UniqueEmails db) (r1 r2 : UserRecord)
    (h1 : r1 ∈ db) (h2 : r2 ∈ db) (he : r1.email = r2.email) : r1 = r2 :=
  List.inj_on_of_nodup_map hU h1 h2 he

theorem SelectUserByEmail_of_mem (db : Store) (hU : UniqueEmails db) (row : UserRecord)
    (hm : row ∈ db) : SelectUserByEmail db row.email = some row := by
  cases hs : SelectUserByEmail db row.email with
  | none => exact absurd rfl ((SelectUserByEmail_none_iff db row.email).mp hs row hm)
  | some r =>
    have h := SelectUserByEmail_some_mem db row.email r hs
    rw [eq_of_email_eq db hU r row h.1 hm h.2]

/-! ## Authenticate -/

theorem Authenticate_of_valid (B : Bcrypt) (V : Validate) (db : Store) (args : AuthenticateArgs)
    (hE : validEmail V args.Email) (hP : validPassword args.PasswordPlain) :
    Authenticate B V db args =
      match SelectUserByEmail db args.Email with
      | none => (0, some .ErrNoRows)
      | some row =>
        match B.CompareHashAndPassword row.password args.PasswordPlain with
        | some e => (0, some (.Bcrypt e))
        | none => (row.id, none) := by
  unfold Authenticate
  rw [(AuthenticateArgs_Struct_none_iff V args).mpr ⟨hE, hP⟩]

theorem Authenticate_ok_iff (B : Bcrypt) (V : Validate) (db : Store) (args : AuthenticateArgs)
    (id : Int) :
    Authenticate B V db args = (id, none) ↔
      (validEmail V args.Email ∧ validPassword args.PasswordPlain) ∧
      ∃ row, SelectUserByEmail db args.Email = some row ∧ row.id = id ∧
        verifies B row.password args.PasswordPlain := by
  unfold Authenticate verifies
  rw [← AuthenticateArgs_Struct_none_iff]
  cases hv : V.Struct args.fields with
  | some err => simp
  | none =>
    cases hs : SelectUserByEmail db args.Email with
    | none => simp
    | some row =>
      cases hc : B.CompareHashAndPassword row.password args.PasswordPlain with
      | some e => simp [hc]
      | none => simp [hc]

/-- C3, as stated, fails: on the one-account table an unknown email yields `sql.ErrNoRows`
while a wrong password for a known email yields bcrypt's mismatch error, so the two failures
are told apart by the error value. -/
theorem Authenticate_errors_distinguish :
    Authenticate sampleBcrypt sampleValidate sampleStore ⟨"nobody@x.com", "password1"⟩
        = (0, some .ErrNoRows) ∧
      Authenticate sampleBcrypt sampleValidate sampleStore ⟨"a@x.com", "password2"⟩
        = (0, some (.Bcrypt .ErrMismatchedHashAndPassword)) ∧
      Authenticate sampleBcrypt sampleValidate sampleStore ⟨"nobody@x.com", "password1"⟩
        ≠ Authenticate sampleBcrypt sampleValidate sampleStore ⟨"a@x.com", "password2"⟩ := by
  decide

/-- C3, amended: for a well-formed input (valid email, password of 8..30 characters)
`Authenticate` returns `(id, nil)` exactly when the row selected by the email exists, has
that id and its hash verifies (with unique emails: exactly when some row has that email,
that id and a verifying hash); when no row has the email it returns `sql.ErrNoRows`; when
the selected row's hash does not verify it returns bcrypt's error, a different value. -/
theorem Authenticate_outcomes (B : Bcrypt) (V : Validate) (db : Store)
    (args : AuthenticateArgs)
    (hE : validEmail V args.Email) (hP : validPassword args.PasswordPlain) :
    (∀ id, Authenticate B V db args = (id, none) ↔
      ∃ row, SelectUserByEmail db args.Email = some row ∧ row.id = id ∧
        verifies B row.password args.PasswordPlain) ∧
    (UniqueEmails db → ∀ id, (Authenticate B V db args = (id, none) ↔
      ∃ row ∈ db, row.email = args.Email ∧ row.id = id ∧
        verifies B row.password args.PasswordPlain)) ∧
    ((∀ row ∈ db, row.email ≠ args.Email) →
      Authenticate B V db args = (0, some .ErrNoRows)) ∧
    (∀ row e, SelectUserByEmail db args.Email = some row →
      B.CompareHashAndPassword row.password args.PasswordPlain = some e →
      Authenticate B V db args = (0, some (.Bcrypt e)) ∧
        ((0, some (.Bcrypt e)) : Int × Option Error) ≠ (0, some .ErrNoRows)) := by
  refine ⟨fun id => ?_, fun hU id => ?_, fun hno => ?_, fun row e hs hc => ?_⟩
  · rw [Authenticate_ok_iff]
    exact ⟨fun h => h.2, fun h => ⟨⟨hE, hP⟩, h⟩⟩
  · rw [Authenticate_ok_iff]
    constructor
    · rintro ⟨_, row, hs, hid, hv⟩
      have hm := SelectUserByEmail_some_mem db args.Email row hs
      exact ⟨row, hm.1, hm.2, hid, hv⟩
    · rintro ⟨row, hm, he, hid, hv⟩
      refine ⟨⟨hE, hP⟩, row, ?_, hid, hv⟩
      rw [← he]
      exact SelectUserByEmail_of_mem db hU row hm
  · rw [Authenticate_of_valid B V db args hE hP,
      (SelectUserByEmail_none_iff db args.Email).mpr hno]
  · rw [Authenticate_of_valid B V db args hE hP, hs]
    simp [hc]

/-- C3, witness of the amended statement: the one-account table and a wrong password. -/
theorem Authenticate_outcomes_witness :
    (validEmail sampleValidate "a@x.com" ∧ validPassword "password2") ∧
    Authenticate sampleBcrypt sampleValidate sampleStore ⟨"a@x.com", "password2"⟩
      = (0, some (.Bcrypt .ErrMismatchedHashAndPassword)) :=
  ⟨by decide,
    ((Authenticate_outcomes sampleBcrypt sampleValidate sampleStore ⟨"a@x.com", "password2"⟩
      (by decide) (by decide)).2.2.2 ⟨1, "a@x.com", sampleHash "password1"⟩
      .ErrMismatchedHashAndPassword (by decide) (by decide)).1⟩

/-- C4: when the `Authenticate(email, current password)` step of `ChangePassword` or
`ChangeEmail` fails with error `e`, the operation returns exactly `e` once its own
validation has let it reach that step, and in every case it returns an error and leaves
the store as it was. -/
theorem failed_authentication_blocks_mutation (B : Bcrypt) (V : Validate) (db : Store)
    (salt : Nat) (email pw : String) (e : Error)
    (hfail : (Authenticate B V db ⟨email, pw⟩).2 = some e) :
    (∀ np nc, V.Struct (ChangePasswordArgs.fields ⟨email, pw, np, nc⟩) = none →
      ChangePassword B V db salt ⟨email, pw, np, nc⟩ = (some e, db)) ∧
    (∀ ne ec, V.Struct (ChangeEmailArgs.fields ⟨email, pw, ne, ec⟩) = none →
      ChangeEmail B V db ⟨email, pw, ne, ec⟩ = (some e, db)) ∧
    (∀ np nc, (ChangePassword B V db salt ⟨email, pw, np, nc⟩).2 = db ∧
      (ChangePassword B V db salt ⟨email, pw, np, nc⟩).1 ≠ none) ∧
    (∀ ne ec, (ChangeEmail B V db ⟨email, pw, ne, ec⟩).2 = db ∧
      (ChangeEmail B V db ⟨email, pw, ne, ec⟩).1 ≠ none) := by
  rcases hA : Authenticate B V db ⟨email, pw⟩ with ⟨i, o⟩
  rw [hA] at hfail
  simp only at hfail
  subst hfail
  refine ⟨fun np nc hv => ?_, fun ne ec hv => ?_, fun np nc => ?_, fun ne ec => ?_⟩
  · simp only [ChangePassword, hv, hA]
  · simp only [ChangeEmail, hv, hA]
  · cases hv : V.Struct (ChangePasswordArgs.fields ⟨email, pw, np, nc⟩) with
    | some err => simp [ChangePassword, hv]
    | none => simp [ChangePassword, hv, hA]
  · cases hv : V.Struct (ChangeEmailArgs.fields ⟨email, pw, ne, ec⟩) with
    | some err => simp [ChangeEmail, hv]
    | none => simp [ChangeEmail, hv, hA]

/-- C4, witness: a wrong current password on the one-account table. -/
theorem failed_authentication_blocks_mutation_witness :
    (Authenticate sampleBcrypt sampleValidate sampleStore ⟨"a@x.com", "password2"⟩).2
        = some (.Bcrypt .ErrMismatchedHashAndPassword) ∧
      ChangeEmail sampleBcrypt sampleValidate sampleStore
        ⟨"a@x.com", "password2", "b@x.com", "b@x.com"⟩
        = (some (.Bcrypt .ErrMismatchedHashAndPassword), sampleStore) :=
  ⟨by decide,
    (failed_authentication_blocks_mutation sampleBcrypt sampleValidate sampleStore 0
      "a@x.com" "password2" (.Bcrypt .ErrMismatchedHashAndPassword) (by decide)).2.1
      "b@x.com" "b@x.com" (by decide)⟩

/-! ## Register -/

theorem InsertUser_cases (db : Store) (email hash : String) :
    (InsertUser db email hash = ((0, some .UniqueConstraint), db) ∧
      ∃ r ∈ db, r.email = email) ∨
    (InsertUser db email hash = ((nextId db, none), db ++ [⟨nextId db, email, hash⟩]) ∧
      ∀ r ∈ db, r.email ≠ email) := by
  unfold InsertUser
  by_cases h : db.any (fun r => r.email == email) = true
  · left
    rw [if_pos h]
    exact ⟨rfl, by simpa using h⟩
  · right
    rw [if_neg h]
    exact ⟨rfl, by simpa using h⟩

/-- C5: `Register` returns a validation error exactly when the input breaks the rule
(email non-empty and accepted by the email check, password of 8 to 30 characters,
confirmation equal to the password); in that case the id is 0, the result is the
validator's alone and the store is returned as it was. A password of 7 or of 31 characters
is rejected; one of 8 or of 30 characters, with a valid email and an equal confirmation,
is not. -/
theorem Register_validation_exact (B : Bcrypt) (V : Validate) (db : Store) (salt : Nat)
    (args : RegisterArgs) :
    ((∃ errs, (Register B V db salt args).1.2 = some (.ValidationErrors errs)) ↔
      ¬ (validEmail V args.Email ∧ validPassword args.PasswordPlain ∧
        args.PasswordConfirm = args.PasswordPlain)) ∧
    ((∃ errs, (Register B V db salt args).1.2 = some (.ValidationErrors errs)) →
      Register B V db salt args = ((0, V.Struct args.fields), db)) ∧
    (args.PasswordPlain.length = 7 ∨ args.PasswordPlain.length = 31 →
      ∃ errs, Register B V db salt args = ((0, some (.ValidationErrors errs)), db)) ∧
    (validEmail V args.Email → args.PasswordConfirm = args.PasswordPlain →
      args.PasswordPlain.length = 8 ∨ args.PasswordPlain.length = 30 →
      ¬ ∃ errs, (Register B V db salt args).1.2 = some (.ValidationErrors errs)) := by
  have key : (∃ errs, (Register B V db salt args).1.2 = some (.ValidationErrors errs)) ↔
      V.Struct args.fields ≠ none := by
    unfold Register
    cases hv : V.Struct args.fields with
    | some err =>
      obtain ⟨errs, rfl⟩ := Struct_eq_some V _ err hv
      simp
    | none =>
      cases hg : B.GenerateFromPassword args.PasswordPlain salt with
      | error e => simp
      | ok h =>
        rcases InsertUser_cases db args.Email h with ⟨hi, _⟩ | ⟨hi, _⟩ <;> simp [hi]
  have rej : V.Struct args.fields ≠ none →
      ∃ errs, Register B V db salt args = ((0, some (.ValidationErrors errs)), db) ∧
        V.Struct args.fields = some (.ValidationErrors errs) := by
    intro hne
    cases hv : V.Struct args.fields with
    | none => exact absurd hv hne
    | some err =>
      obtain ⟨errs, rfl⟩ := Struct_eq_some V _ err hv
      exact ⟨errs, by simp [Register, hv], rfl⟩
  refine ⟨?_, ?_, ?_, ?_⟩
  · rw [key, Ne, RegisterArgs_Struct_none_iff]
  · intro h
    obtain ⟨errs, h1, h2⟩ := rej (key.mp h)
    rw [h1, h2]
  · intro h7
    have hne : V.Struct args.fields ≠ none := by
      rw [Ne, RegisterArgs_Struct_none_iff]
      rintro ⟨_, ⟨h8, h30⟩, _⟩
      omega
    obtain ⟨errs, h1, _⟩ := rej hne
    exact ⟨errs, h1⟩
  · intro hE hC hlen
    rw [key, Ne, not_not, RegisterArgs_Struct_none_iff]
    exact ⟨hE, by unfold validPassword; omega, hC⟩

/-- C5, witness: a 7-character password is refused before the empty table is touched. -/
theorem Register_validation_exact_witness :
    "passwor".length = 7 ∧
    ∃ errs, Register sampleBcrypt sampleValidate [] 0 ⟨"a@x.com", "passwor", "passwor"⟩
      = ((0, some (.ValidationErrors errs)), []) :=
  ⟨by decide,
    (Register_validation_exact sampleBcrypt sampleValidate [] 0
      ⟨"a@x.com", "passwor", "passwor"⟩).2.2.1 (Or.inl (by decide))⟩

theorem sampleHash_length (p : String) (hp : p.length ≤ 53) : (sampleHash p).length = 60 := by
  have h7 : "$2a$10$".toList.length = 7 := by decide
  have hl : p.toList.length = p.length := rfl
  show ("$2a$10$".toList ++ p.toList ++ List.replicate (53 - p.length) '.').length = 60
  rw [List.length_append, List.length_append, List.length_replicate, h7, hl]
  omega

theorem sampleBcrypt_generate (p : String) (s : Nat) (h : String)
    (hg : sampleBcrypt.GenerateFromPassword p s = .ok h) : p.length ≤ 53 ∧ h = sampleHash p := by
  simp only [sampleBcrypt] at hg
  by_cases hp : p.length ≤ 53
  · rw [if_pos hp] at hg
    injection hg with hg
    exact ⟨hp, hg.symm⟩
  · rw [if_neg hp] at hg
    cases hg

theorem sampleBcrypt_correct (p : String) (s : Nat) (h : String)
    (hg : sampleBcrypt.GenerateFromPassword p s = .ok h) : verifies sampleBcrypt h p := by
  obtain ⟨hp, rfl⟩ := sampleBcrypt_generate p s h hg
  simp [verifies, sampleBcrypt, sampleHash_length p hp]

theorem sampleBcrypt_shape (p : String) (s : Nat) (h : String)
    (hg : sampleBcrypt.GenerateFromPassword p s = .ok h) : h.length = 60 := by
  obtain ⟨hp, rfl⟩ := sampleBcrypt_generate p s h hg
  exact sampleHash_length p hp

/-- C2: when `Register` returns `(id, nil)`, `Authenticate` with the same email and
plaintext on the resulting store returns `(id, nil)`, and the row `Register` appended
holds in its password column the bcrypt hash of the plaintext, which differs from the
plaintext. Assumed of bcrypt: a generated hash verifies against its password and is 60
characters long. -/
theorem Register_then_Authenticate (B : Bcrypt) (V : Validate) (db : Store) (salt : Nat)
    (args : RegisterArgs) (id : Int) (db1 : Store)
    (hcorrect : ∀ p s h, B.GenerateFromPassword p s = .ok h → verifies B h p)
    (hshape : ∀ p s h, B.GenerateFromPassword p s = .ok h → h.length = 60)
    (hreg : Register B V db salt args = ((id, none), db1)) :
    Authenticate B V db1 ⟨args.Email, args.PasswordPlain⟩ = (id, none) ∧
    ∃ h, B.GenerateFromPassword args.PasswordPlain salt = .ok h ∧
      db1 = db ++ [⟨id, args.Email, h⟩] ∧ h ≠ args.PasswordPlain := by
  unfold Register at hreg
  cases hv : V.Struct args.fields with
  | some err => simp [hv] at hreg
  | none =>
    obtain ⟨hE, hP, _⟩ := (RegisterArgs_Struct_none_iff V args).mp hv
    cases hg : B.GenerateFromPassword args.PasswordPlain salt with
    | error e => simp [hv, hg] at hreg
    | ok h =>
      rcases InsertUser_cases db args.Email h with ⟨hi, _⟩ | ⟨hi, hfresh⟩
      · simp [hv, hg, hi] at hreg
      · simp only [hv, hg, hi, Prod.mk.injEq] at hreg
        obtain ⟨⟨hid, _⟩, hdb⟩ := hreg
        subst hid hdb
        refine ⟨?_, h, rfl, rfl, ?_⟩
        · rw [Authenticate_ok_iff]
          refine ⟨⟨hE, hP⟩, ⟨nextId db, args.Email, h⟩, ?_, rfl, hcorrect _ _ _ hg⟩
          unfold SelectUserByEmail
          rw [List.find?_append, List.find?_eq_none.mpr (by simpa using hfresh)]
          simp
        · intro heq
          have h60 := hshape _ _ _ hg
          rw [heq] at h60
          have := hP.2
          omega

/-- C2, witness: the first registration on an empty table. -/
theorem Register_then_Authenticate_witness :
    Register sampleBcrypt sampleValidate [] 0 ⟨"a@x.com", "password1", "password1"⟩
        = ((1, none), sampleStore) ∧
      Authenticate sampleBcrypt sampleValidate sampleStore ⟨"a@x.com", "password1"⟩
        = (1, none) :=
  ⟨by decide,
    (Register_then_Authenticate sampleBcrypt sampleValidate [] 0
      ⟨"a@x.com", "password1", "password1"⟩ 1 sampleStore
      sampleBcrypt_correct sampleBcrypt_shape (by decide)).1⟩

/-! ## Changing the email -/

theorem ForceChangeEmail_eq (db : Store) (args : ChangeEmailAdminArgs) :
    ForceChangeEmail db args =
      ((UpdateEmailById db args.Id args.NewEmail).1.2,
        (UpdateEmailById db args.Id args.NewEmail).2) := by
  simp only [ForceChangeEmail, Update, UpdateBuilder.RunWith, UpdateBuilder.Exec, if_true]
  rcases UpdateEmailById db args.Id args.NewEmail with ⟨⟨n, _ | err⟩, db1⟩ <;> rfl

theorem UpdateEmailById_ok (db : Store) (id : Int) (email : String) (db1 : Store)
    (h : (UpdateEmailById db id email).1.2 = none ∧ (UpdateEmailById db id email).2 = db1) :
    ((∀ r ∈ db, r.id ≠ id) ∧ db1 = db) ∨
    ((db.filter (fun r => r.id == id)).length = 1 ∧
      (∀ r ∈ db, r.id ≠ id → r.email ≠ email) ∧
      db1 = db.map (fun r => if r.id == id then { r with email := email } else r)) := by
  unfold UpdateEmailById at h
  simp only at h
  by_cases h0 : (db.filter (fun r => r.id == id)).length = 0
  · left
    rw [if_pos h0] at h
    refine ⟨?_, h.2.symm⟩
    intro r hr hid
    have : r ∈ db.filter (fun r => r.id == id) := by simp [List.mem_filter, hr, hid]
    rw [List.length_eq_zero.mp h0] at this
    cases this
  · right
    rw [if_neg h0] at h
    by_cases hc : 2 ≤ (db.filter (fun r => r.id == id)).length ∨
        db.any (fun r => r.id != id && r.email == email) = true
    · rw [if_pos hc] at h
      exact absurd h.1 (by simp)
    · rw [if_neg hc] at h
      rw [not_or] at hc
      refine ⟨by omega, ?_, h.2.symm⟩
      intro r hr hid he
      apply hc.2
      simp only [List.any_eq_true]
      exact ⟨r, hr, by simp [hid, he]⟩

theorem ChangeEmail_ok (B : Bcrypt) (V : Validate) (db : Store) (args : ChangeEmailArgs)
    (db1 : Store) (h : ChangeEmail B V db args = (none, db1)) :
    (validEmail V args.Email ∧ validPassword args.PasswordPlain ∧
      (validEmail V args.NewEmail ∧ args.NewEmail ≠ args.Email) ∧
      (validEmail V args.EmailConfirm ∧ args.EmailConfirm ≠ args.Email)) ∧
    ∃ id, Authenticate B V db ⟨args.Email, args.PasswordPlain⟩ = (id, none) ∧
      (UpdateEmailById db id args.NewEmail).1.2 = none ∧
      (UpdateEmailById db id args.NewEmail).2 = db1 := by
  unfold ChangeEmail at h
  cases hv : V.Struct args.fields with
  | some err => simp [hv] at h
  | none =>
    refine ⟨(ChangeEmailArgs_Struct_none_iff V args).mp hv, ?_⟩
    rcases hA : Authenticate B V db ⟨args.Email, args.PasswordPlain⟩ with ⟨id, _ | err⟩
    · refine ⟨id, rfl, ?_⟩
      simp only [hv, hA, ForceChangeEmail_eq] at h
      rcases hu : UpdateEmailById db id args.NewEmail with ⟨⟨n, _ | err⟩, db2⟩
      · simpa [hu] using h
      · simp [hu] at h
    · simp [hv, hA] at h

/-- C8: on a store with unique emails that holds the record `(id, email, hash)`, when
`ChangeEmail` with the new email given twice returns no error, the resulting store is the
old one with that one record's email replaced (same id, same hash, every other record as
it was), `Authenticate(email, pw)` on it fails with no row found, and
`Authenticate(newEmail, pw)` returns `id`. -/
theorem ChangeEmail_moves_credential (B : Bcrypt) (V : Validate) (db : Store) (id : Int)
    (email hash pw newEmail : String) (db1 : Store)
    (hU : UniqueEmails db) (hrow : (⟨id, email, hash⟩ : UserRecord) ∈ db)
    (hres : ChangeEmail B V db ⟨email, pw, newEmail, newEmail⟩ = (none, db1)) :
    verifies B hash pw ∧
    Authenticate B V db1 ⟨email, pw⟩ = (0, some .ErrNoRows) ∧
    Authenticate B V db1 ⟨newEmail, pw⟩ = (id, none) ∧
    (⟨id, newEmail, hash⟩ : UserRecord) ∈ db1 ∧
    db1 = db.map (fun r => if r = ⟨id, email, hash⟩ then ⟨id, newEmail, hash⟩ else r) := by
  obtain ⟨⟨hE, hP, ⟨hNE, hne⟩, _⟩, i, hA, hu⟩ := ChangeEmail_ok B V db _ db1 hres
  simp only at hE hP hNE hne hA hu
  obtain ⟨_, row, hs, hid, hv⟩ := (Authenticate_ok_iff B V db _ i).mp hA
  simp only at hs hv
  obtain ⟨hm, he⟩ := SelectUserByEmail_some_mem db email row hs
  have hrw : row = ⟨id, email, hash⟩ := eq_of_email_eq db hU row _ hm hrow he
  subst hrw
  simp only at hid hv
  subst hid
  rcases UpdateEmailById_ok db id newEmail db1 hu with ⟨hnone, _⟩ | ⟨hone, hfree, hdb⟩
  · exact absurd rfl (hnone _ hrow)
  · -- the rewritten rows are exactly the record
    have honly : ∀ r ∈ db, r.id = id → r = ⟨id, email, hash⟩ := by
      intro r hr hrid
      obtain ⟨x, hx⟩ := List.length_eq_one.mp hone
      have h1 : r ∈ db.filter (fun r => r.id == id) := by simp [List.mem_filter, hr, hrid]
      have h2 : (⟨id, email, hash⟩ : UserRecord) ∈ db.filter (fun r => r.id == id) := by
        simp [List.mem_filter, hrow]
      rw [hx, List.mem_singleton] at h1 h2
      rw [h1, h2]
    have hmap : db1 = db.map (fun r => if r = ⟨id, email, hash⟩ then ⟨id, newEmail, hash⟩ else r) := by
      rw [hdb]
      apply List.map_congr_left
      intro r hr
      by_cases hrid : r.id = id
      · rw [honly r hr hrid]
        simp
      · have : r ≠ ⟨id, email, hash⟩ := fun h => hrid (by rw [h])
        simp [hrid, this]
    have hnew : (⟨id, newEmail, hash⟩ : UserRecord) ∈ db1 := by
      rw [hmap, List.mem_map]
      exact ⟨_, hrow, by simp⟩
    have hemails : ∀ r ∈ db1, r.email = newEmail → r = ⟨id, newEmail, hash⟩ := by
      intro r hr hre
      rw [hmap, List.mem_map] at hr
      obtain ⟨r0, hr0, hr0e⟩ := hr
      by_cases h0 : r0 = ⟨id, email, hash⟩
      · rw [if_pos h0] at hr0e
        exact hr0e.symm
      · rw [if_neg h0] at hr0e
        subst hr0e
        have hrid : r0.id ≠ id := fun h => h0 (honly r0 hr0 h)
        exact absurd hre (hfree r0 hr0 hrid)
    refine ⟨hv, ?_, ?_, hnew, hmap⟩
    · rw [Authenticate_of_valid B V db1 _ hE hP]
      simp only
      rw [(SelectUserByEmail_none_iff db1 email).mpr]
      intro r hr hre
      rw [hmap, List.mem_map] at hr
      obtain ⟨r0, hr0, hr0e⟩ := hr
      by_cases h0 : r0 = ⟨id, email, hash⟩
      · rw [if_pos h0] at hr0e
        subst hr0e
        exact hne hre
      · rw [if_neg h0] at hr0e
        subst hr0e
        exact h0 (eq_of_email_eq db hU r0 _ hr0 hrow hre)
    · rw [Authenticate_ok_iff]
      refine ⟨⟨hNE, hP⟩, ⟨id, newEmail, hash⟩, ?_, rfl, hv⟩
      simp only
      cases hs1 : SelectUserByEmail db1 newEmail with
      | none => exact absurd rfl ((SelectUserByEmail_none_iff db1 newEmail).mp hs1 _ hnew)
      | some r =>
        obtain ⟨hr, hre⟩ := SelectUserByEmail_some_mem db1 newEmail r hs1
        rw [hemails r hr hre]

/-- C8, witness: the first of two accounts moves to `new@x.com`. -/
theorem ChangeEmail_moves_credential_witness :
    UniqueEmails sampleStore2 ∧
    ChangeEmail sampleBcrypt sampleValidate sampleStore2
        ⟨"a@x.com", "password1", "new@x.com", "new@x.com"⟩
      = (none, [⟨1, "new@x.com", sampleHash "password1"⟩,
          ⟨2, "b@x.com", sampleHash "password2"⟩]) ∧
    Authenticate sampleBcrypt sampleValidate
        [⟨1, "new@x.com", sampleHash "password1"⟩, ⟨2, "b@x.com", sampleHash "password2"⟩]
        ⟨"new@x.com", "password1"⟩ = (1, none) :=
  ⟨by decide, by decide,
    (ChangeEmail_moves_credential sampleBcrypt sampleValidate sampleStore2 1
      "a@x.com" (sampleHash "password1") "password1" "new@x.com" _
      (by decide) (by decide) (by decide)).2.2.1⟩

/-! ## Changing the password -/

theorem ForceChangePassword_no_effect (B : Bcrypt) (V : Validate) (db : Store) (salt : Nat)
    (args : ForceChangePasswordArgs) :
    (ForceChangePassword B V db salt args).2 = db ∧
      (ForceChangePassword B V db salt args).1 ≠ none := by
  unfold ForceChangePassword
  cases hv : V.Struct args.fields with
  | some err => simp
  | none =>
    cases hg : B.GenerateFromPassword args.NewPasswordPlain salt with
    | error e => simp
    | ok h => simp [Update, UpdateBuilder.Exec]

theorem ChangePassword_store (B : Bcrypt) (V : Validate) (db : Store) (salt : Nat)
    (args : ChangePasswordArgs) : (ChangePassword B V db salt args).2 = db := by
  unfold ChangePassword
  cases hv : V.Struct args.fields with
  | some err => rfl
  | none =>
    rcases hA : Authenticate B V db ⟨args.Email, args.PasswordPlain⟩ with ⟨id, _ | err⟩
    · exact (ForceChangePassword_no_effect B V db salt _).1
    · rfl

theorem ChangePassword_nil_iff (B : Bcrypt) (V : Validate) (db : Store) (salt : Nat)
    (args : ChangePasswordArgs) :
    (ChangePassword B V db salt args).1 = none ↔
      V.Struct args.fields = none ∧
        (Authenticate B V db ⟨args.Email, args.PasswordPlain⟩).2 = none := by
  unfold ChangePassword
  cases hv : V.Struct args.fields with
  | some err => simp
  | none =>
    rcases hA : Authenticate B V db ⟨args.Email, args.PasswordPlain⟩ with ⟨id, _ | err⟩ <;> simp

/-- C1, the code departs from the claim: `ChangePassword` never changes the store, whatever
its input. On the one-account table, changing `password1` to `password2` returns `nil`,
and afterwards `password2` is refused while `password1` still authenticates as id 1. -/
theorem ChangePassword_keeps_old_password :
    (∀ (B : Bcrypt) (V : Validate) (db : Store) (salt : Nat) (args : ChangePasswordArgs),
      (ChangePassword B V db salt args).2 = db) ∧
    ChangePassword sampleBcrypt sampleValidate sampleStore 0
        ⟨"a@x.com", "password1", "password2", "password2"⟩ = (none, sampleStore) ∧
    Authenticate sampleBcrypt sampleValidate sampleStore ⟨"a@x.com", "password2"⟩
        = (0, some (.Bcrypt .ErrMismatchedHashAndPassword)) ∧
    Authenticate sampleBcrypt sampleValidate sampleStore ⟨"a@x.com", "password1"⟩
        = (1, none) :=
  ⟨ChangePassword_store, by decide, by decide, by decide⟩

/-- C6, the code departs from the claim: `ChangePassword` returns `nil` whenever its tags
pass and the current password authenticates, and the tags do not compare the confirmation
with the new password. For the account of the test, with the right current password,
`new_password` and the confirmation `not_new_password`, it returns `nil`. -/
theorem ChangePassword_accepts_unconfirmed :
    (∀ (B : Bcrypt) (V : Validate) (db : Store) (salt : Nat) (args : ChangePasswordArgs),
      (ChangePassword B V db salt args).1 = none ↔
        (validEmail V args.Email ∧ validPassword args.PasswordPlain ∧
          (validPassword args.NewPasswordPlain ∧ args.NewPasswordPlain ≠ args.PasswordPlain) ∧
          (validPassword args.NewPasswordConfirm ∧
            args.NewPasswordConfirm ≠ args.PasswordPlain)) ∧
        (Authenticate B V db ⟨args.Email, args.PasswordPlain⟩).2 = none) ∧
    ChangePassword sampleBcrypt sampleValidate sampleStore3 0
        ⟨"changePass@email.com", "password", "new_password", "not_new_password"⟩
      = (none, sampleStore3) :=
  ⟨fun B V db salt args => by
      rw [ChangePassword_nil_iff, ChangePasswordArgs_Struct_none_iff],
    by decide⟩

/-- C9, the code departs from the claim: `ForceChangePassword` never returns `nil` and
never changes the store, because its update statement has no runner. For the record with
id 1 and the new password `password2` it returns the builder's `RunnerNotSet`, and the new
password does not authenticate afterwards. -/
theorem ForceChangePassword_never_updates :
    (∀ (B : Bcrypt) (V : Validate) (db : Store) (salt : Nat) (args : ForceChangePasswordArgs),
      (ForceChangePassword B V db salt args).2 = db ∧
        (ForceChangePassword B V db salt args).1 ≠ none) ∧
    ForceChangePassword sampleBcrypt sampleValidate sampleStore 0 ⟨1, "password2"⟩
      = (some .RunnerNotSet, sampleStore) ∧
    Authenticate sampleBcrypt sampleValidate
        (ForceChangePassword sampleBcrypt sampleValidate sampleStore 0 ⟨1, "password2"⟩).2
        ⟨"a@x.com", "password2"⟩
      = (0, some (.Bcrypt .ErrMismatchedHashAndPassword)) :=
  ⟨ForceChangePassword_no_effect, by decide, by decide⟩

/-! ## Unconfirmed and unvalidated email changes -/

/-- C7, the code departs from the claim: with the right password, the new email `b@x.com`
and the confirmation `c@x.com`, `ChangeEmail` returns `nil` and the record's email is now
`b@x.com`. -/
theorem ChangeEmail_accepts_unconfirmed :
    ChangeEmail sampleBcrypt sampleValidate sampleStore
        ⟨"a@x.com", "password1", "b@x.com", "c@x.com"⟩
      = (none, [⟨1, "b@x.com", sampleHash "password1"⟩]) := by
  decide

/-- C10, the code departs from the claim: `ForceChangeEmail` never returns a validation
error. An empty new email, a malformed one and an unconfirmed one are each written to the
record with id 1, although the tags of `ChangeEmailAdminArgs` reject the first two and
`Authenticate` rejects the resulting email; with `Id` 0 it returns `nil`. -/
theorem ForceChangeEmail_skips_validation :
    (∀ (db : Store) (args : ChangeEmailAdminArgs) (errs : List FieldError),
      (ForceChangeEmail db args).1 ≠ some (.ValidationErrors errs)) ∧
    ForceChangeEmail sampleStore ⟨1, "", "c@x.com"⟩
      = (none, [⟨1, "", sampleHash "password1"⟩]) ∧
    ForceChangeEmail sampleStore ⟨1, "not-an-email", "not-an-email"⟩
      = (none, [⟨1, "not-an-email", sampleHash "password1"⟩]) ∧
    ForceChangeEmail sampleStore ⟨1, "b@x.com", "c@x.com"⟩
      = (none, [⟨1, "b@x.com", sampleHash "password1"⟩]) ∧
    ForceChangeEmail sampleStore ⟨0, "b@x.com", "b@x.com"⟩ = (none, sampleStore) ∧
    sampleValidate.Struct (ChangeEmailAdminArgs.fields ⟨1, "", "c@x.com"⟩)
      = some (.ValidationErrors [⟨"NewEmail", "required"⟩]) ∧
    sampleValidate.Struct (ChangeEmailAdminArgs.fields ⟨1, "not-an-email", "not-an-email"⟩)
      = some (.ValidationErrors [⟨"NewEmail", "email"⟩, ⟨"EmailConfirm", "email"⟩]) ∧
    Authenticate sampleBcrypt sampleValidate [⟨1, "", sampleHash "password1"⟩]
        ⟨"", "password1"⟩
      = (0, some (.ValidationErrors [⟨"Email", "required"⟩])) := by
  refine ⟨fun db args errs => ?_, by decide, by decide, by decide, by decide, by decide,
    by decide, by decide⟩
  rw [ForceChangeEmail_eq]
  unfold UpdateEmailById
  simp only
  split_ifs <;> simp

end Auth
